import Mathlib

set_option maxHeartbeats 1000000

/-!
Shallow embedding of the NetBox Splunk connector
(`netbox_client.py`, `netbox_inventory.py`, `netbox_lookup_command.py`).

HTTP transport (`requests`) and the JSON stdlib are external collaborators:
an HTTP response is modelled as its status, raw text and the JSON parse of
that text; `json.loads` / `json.dumps` and Python `str()` are modelled
directly on the JSON value type.
-/

namespace NB

/-- JSON values as produced by parsing an API response body.  JSON numbers
are modelled as integers; float literals are outside the modelled domain. -/
inductive Json where
  | null
  | bool (b : Bool)
  | num (n : Int)
  | str (s : String)
  | arr (items : List Json)
  | obj (fields : List (String × Json))

/-- Python truthiness of a JSON-decoded value (`if not value`, `payload or` ...). -/
def Json.isTruthy : Json → Bool
  | .null => false
  | .bool b => b
  | .num n => if n = 0 then false else true
  | .str s => if s = "" then false else true
  | .arr items => !items.isEmpty
  | .obj fields => !fields.isEmpty

/-- Membership of a key in a Python dict, as in `{"results", "next"}.issubset(data.keys())`
or `"netbox" in record`. -/
def hasKey (k : String) (fields : List (String × Json)) : Bool :=
  fields.any (fun kv => kv.1 == k)

/-- `dict.get(k)`: the value stored under the first matching key, if any. -/
def lookupJ (k : String) (fields : List (String × Json)) : Option Json :=
  (fields.find? (fun kv => kv.1 == k)).map (fun kv => kv.2)

/-- `data.get(k, dflt)` on a JSON value known to be a mapping; non-mappings
have no `.get` in Python (AttributeError, outside the modelled executions). -/
def objGet (j : Json) (k : String) (dflt : Json) : Json :=
  match j with
  | .obj fields =>
    match lookupJ k fields with
    | some v => v
    | none => dflt
  | _ => dflt

/-- One hexadecimal digit (lower case), as used by `json.dumps` escapes. -/
def hexDigit (n : Nat) : Char :=
  if n < 10 then Char.ofNat (48 + n) else Char.ofNat (87 + (n % 16))

/-- Four-digit hexadecimal rendering of a code point below 0x10000. -/
def hex4 (n : Nat) : String :=
  String.mk [hexDigit (n / 4096 % 16), hexDigit (n / 256 % 16), hexDigit (n / 16 % 16), hexDigit (n % 16)]

/-- `json.dumps` escaping of one character inside a string literal
(`ensure_ascii=False`: non-ASCII characters are kept verbatim). -/
def escapeChar (c : Char) : String :=
  if c = '"' then "\\\""
  else if c = '\\' then "\\\\"
  else if c = '\n' then "\\n"
  else if c = '\t' then "\\t"
  else if c = '\r' then "\\r"
  else if c = Char.ofNat 8 then "\\b"
  else if c = Char.ofNat 12 then "\\f"
  else if c.toNat < 32 then "\\u" ++ hex4 c.toNat
  else String.singleton c

/-- `json.dumps` rendering of a string literal. -/
def quoteStr (s : String) : String :=
  "\"" ++ String.join (s.data.map escapeChar) ++ "\""

mutual

/-- `json.dumps(value, ensure_ascii=False)` with the default separators
`", "` and `": "`. -/
def Json.dumps : Json → String
  | .null => "null"
  | .bool true => "true"
  | .bool false => "false"
  | .num n => toString n
  | .str s => quoteStr s
  | .arr items => "[" ++ dumpsList items ++ "]"
  | .obj fields => "\x7b" ++ dumpsObj fields ++ "\x7d"

def dumpsList : List Json → String
  | [] => ""
  | [j] => Json.dumps j
  | j :: rest => Json.dumps j ++ ", " ++ dumpsList rest

def dumpsObj : List (String × Json) → String
  | [] => ""
  | [kv] => quoteStr kv.1 ++ ": " ++ Json.dumps kv.2
  | kv :: rest => quoteStr kv.1 ++ ": " ++ Json.dumps kv.2 ++ ", " ++ dumpsObj rest

end

/-- The single-quote character, used by Python `repr` of strings. -/
def sq : String := String.singleton (Char.ofNat 39)

mutual

/-- Python `repr()` of a JSON-decoded value (the rendering `str()` falls back
to for containers).  String `repr` is modelled for strings without quote or
escape characters, the only ones reaching it in the modelled executions. -/
def pyRepr : Json → String
  | .null => "None"
  | .bool true => "True"
  | .bool false => "False"
  | .num n => toString n
  | .str s => sq ++ s ++ sq
  | .arr items => "[" ++ pyReprList items ++ "]"
  | .obj fields => "\x7b" ++ pyReprObj fields ++ "\x7d"

def pyReprList : List Json → String
  | [] => ""
  | [j] => pyRepr j
  | j :: rest => pyRepr j ++ ", " ++ pyReprList rest

def pyReprObj : List (String × Json) → String
  | [] => ""
  | [kv] => sq ++ kv.1 ++ sq ++ ": " ++ pyRepr kv.2
  | kv :: rest => sq ++ kv.1 ++ sq ++ ": " ++ pyRepr kv.2 ++ ", " ++ pyReprObj rest

end

/-- Python `str()` of a JSON-decoded value, as used by
`{str(k): str(v) for k, v in data.items()}` and `str(value)` cache keys. -/
def pyStr : Json → String
  | .str s => s
  | j => pyRepr j

/-- Python whitespace, the character class `str.strip()` removes (beyond
ASCII, Python also strips Unicode spaces, outside the modelled text domain). -/
def isPySpace (c : Char) : Bool :=
  c = ' ' || c = '\t' || c = '\n' || c = '\r' || c = Char.ofNat 11 || c = Char.ofNat 12

/-- `value.strip()`. -/
def pyStrip (s : String) : String :=
  String.mk (((s.data.dropWhile isPySpace).reverse.dropWhile isPySpace).reverse)

/-! ### `json.loads` (Python stdlib collaborator)

A model of the stdlib JSON decoder in strict mode, restricted to the modelled
value domain: integer number literals (fraction or exponent parts, and
`\uXXXX` escapes in the surrogate range, are outside the model and rejected),
standard escapes, objects, arrays, and the JSON whitespace set. -/

/-- JSON whitespace skipped between tokens. -/
def skipWs (cs : List Char) : List Char :=
  cs.dropWhile (fun c => c = ' ' || c = '\t' || c = '\n' || c = '\r')

/-- Value of a hexadecimal digit, if the character is one. -/
def hexVal (c : Char) : Option Nat :=
  if '0' ≤ c && c ≤ '9' then some (c.toNat - 48)
  else if 'a' ≤ c && c ≤ 'f' then some (c.toNat - 87)
  else if 'A' ≤ c && c ≤ 'F' then some (c.toNat - 55)
  else none

/-- Decimal value of a digit list. -/
def digitsVal (ds : List Char) : Nat :=
  ds.foldl (fun acc c => acc * 10 + (c.toNat - 48)) 0

/-- A JSON number token: optional minus, then `0` or a nonzero-led digit run;
a following `.`, `e` or `E` would denote a float, outside the model. -/
def parseNum (cs : List Char) : Option (Json × List Char) :=
  let (neg, cs1) := match cs with
    | '-' :: rest => (true, rest)
    | _ => (false, cs)
  let ds := cs1.takeWhile (fun c => c.isDigit)
  let rest := cs1.drop ds.length
  if ds.isEmpty then none
  else if ds.length > 1 && ds.head? = some '0' then none
  else match rest with
    | '.' :: _ => none
    | 'e' :: _ => none
    | 'E' :: _ => none
    | _ =>
      let v : Int := Int.ofNat (digitsVal ds)
      some (.num (if neg then -v else v), rest)

/-- The characters of a JSON string literal after the opening quote,
fuelled by the remaining input length. -/
def parseStrRest : Nat → List Char → Option (String × List Char)
  | 0, _ => none
  | _ + 1, [] => none
  | fuel + 1, c :: rest =>
    if c = '"' then some ("", rest)
    else if c = '\\' then
      match rest with
      | [] => none
      | e :: rest2 =>
        let esc : Option (Char × List Char) :=
          if e = '"' then some ('"', rest2)
          else if e = '\\' then some ('\\', rest2)
          else if e = '/' then some ('/', rest2)
          else if e = 'b' then some (Char.ofNat 8, rest2)
          else if e = 'f' then some (Char.ofNat 12, rest2)
          else if e = 'n' then some ('\n', rest2)
          else if e = 'r' then some ('\r', rest2)
          else if e = 't' then some ('\t', rest2)
          else if e = 'u' then
            match rest2 with
            | h1 :: h2 :: h3 :: h4 :: rest3 =>
              match hexVal h1, hexVal h2, hexVal h3, hexVal h4 with
              | some a, some b, some c2, some d =>
                let code := a * 4096 + b * 256 + c2 * 16 + d
                if 0xd800 ≤ code && code ≤ 0xdfff then none
                else some (Char.ofNat code, rest3)
              | _, _, _, _ => none
            | _ => none
          else none
        match esc with
        | some (ch, restE) =>
          match parseStrRest fuel restE with
          | some (s, restF) => some (String.singleton ch ++ s, restF)
          | none => none
        | none => none
    else if c.toNat < 32 then none
    else
      match parseStrRest fuel rest with
      | some (s, restF) => some (String.singleton c ++ s, restF)
      | none => none

mutual

/-- One JSON value, leading whitespace allowed. -/
def parseVal : Nat → List Char → Option (Json × List Char)
  | 0, _ => none
  | fuel + 1, cs =>
    match skipWs cs with
    | [] => none
    | c :: rest =>
      if c = 'n' then
        match rest with
        | 'u' :: 'l' :: 'l' :: rest2 => some (.null, rest2)
        | _ => none
      else if c = 't' then
        match rest with
        | 'r' :: 'u' :: 'e' :: rest2 => some (.bool true, rest2)
        | _ => none
      else if c = 'f' then
        match rest with
        | 'a' :: 'l' :: 's' :: 'e' :: rest2 => some (.bool false, rest2)
        | _ => none
      else if c = '"' then
        match parseStrRest (rest.length + 1) rest with
        | some (s, rest2) => some (.str s, rest2)
        | none => none
      else if c = '[' then
        match skipWs rest with
        | ']' :: rest2 => some (.arr [], rest2)
        | _ =>
          match parseArrItems fuel rest with
          | some (items, rest2) => some (.arr items, rest2)
          | none => none
      else if c = Char.ofNat 123 then
        match skipWs rest with
        | c2 :: rest2 =>
          if c2 = Char.ofNat 125 then some (.obj [], rest2)
          else
            match parseObjItems fuel rest with
            | some (fields, rest3) => some (.obj fields, rest3)
            | none => none
        | [] => none
      else parseNum (c :: rest)

/-- Comma-separated array items followed by `]`. -/
def parseArrItems : Nat → List Char → Option (List Json × List Char)
  | 0, _ => none
  | fuel + 1, cs =>
    match parseVal fuel cs with
    | none => none
    | some (v, rest) =>
      match skipWs rest with
      | ',' :: rest2 =>
        match parseArrItems fuel rest2 with
        | some (items, rest3) => some (v :: items, rest3)
        | none => none
      | ']' :: rest2 => some ([v], rest2)
      | _ => none

/-- Comma-separated `"key": value` pairs followed by the closing brace. -/
def parseObjItems : Nat → List Char → Option (List (String × Json) × List Char)
  | 0, _ => none
  | fuel + 1, cs =>
    match skipWs cs with
    | '"' :: rest =>
      match parseStrRest (rest.length + 1) rest with
      | none => none
      | some (k, rest2) =>
        match skipWs rest2 with
        | ':' :: rest3 =>
          match parseVal fuel rest3 with
          | none => none
          | some (v, rest4) =>
            match skipWs rest4 with
            | ',' :: rest5 =>
              match parseObjItems fuel rest5 with
              | some (fields, rest6) => some ((k, v) :: fields, rest6)
              | none => none
            | c :: rest5 =>
              if c = Char.ofNat 125 then some ([(k, v)], rest5) else none
            | [] => none
        | _ => none
    | _ => none

end

/-- `json.loads`: parse one value and require only whitespace after it.
The fuel exceeds any possible nesting depth of the input. -/
def jsonLoads (s : String) : Option Json :=
  match parseVal (2 * s.length + 4) s.data with
  | some (v, rest) => if (skipWs rest).isEmpty then some v else none
  | none => none

/-! ### `netbox_client.py` -/

/-- Query parameters as sent with a request (`Dict[str, str]`, insertion ordered). -/
abbrev Params := List (String × String)

/-- An HTTP response from the transport collaborator (`requests`): status code,
raw text, and the result of `response.json()` (`none` when the text is not
valid JSON). -/
structure HttpResponse where
  status : Nat
  text : String
  body : Option Json

/-- `response.ok` from `requests`: true exactly for status codes below 400. -/
def HttpResponse.ok (r : HttpResponse) : Bool := r.status < 400

/-- `NetBoxAPIError`: message, optional HTTP status, and payload after the
constructor normalization `self.payload = payload or \x7b\x7d`. -/
structure NetBoxAPIError where
  message : String
  status : Option Nat
  payload : Json

/-- `NetBoxAPIError.__init__`: a falsy (or absent) payload becomes the empty dict. -/
def mkAPIError (message : String) (status : Option Nat) (payload : Option Json) : NetBoxAPIError :=
  { message := message
    status := status
    payload :=
      match payload with
      | some p => if p.isTruthy then p else Json.obj []
      | none => Json.obj [] }

/-- The non-JSON-body error raised in `iter_resource` and `get_by_id`:
`NetBoxAPIError("NetBox API returned non JSON response", payload=\x7b"raw": response.text\x7d)`. -/
def nonJsonError (raw : String) : NetBoxAPIError :=
  mkAPIError "NetBox API returned non JSON response" none (some (.obj [("raw", .str raw)]))

/-- The unrecognized-shape error raised in `iter_resource`:
`NetBoxAPIError("Unexpected response structure from NetBox", payload=\x7b"raw": json.dumps(data)\x7d)`. -/
def unexpectedError (data : Json) : NetBoxAPIError :=
  mkAPIError "Unexpected response structure from NetBox" none (some (.obj [("raw", .str data.dumps)]))

namespace NetBoxClient

/-- `NetBoxClient._request`, given the response the transport returns for the
one request it issues: passes an ok response through, and raises
`NetBoxAPIError` with the status code and the `response.json()` parse result
(`None` when not JSON, normalized to the empty dict by the constructor) for
any non-success status. -/
def hrequest (resp : HttpResponse) : Except NetBoxAPIError HttpResponse :=
  if resp.ok then .ok resp
  else
    .error (mkAPIError ("NetBox API request failed with status " ++ toString resp.status)
      (some resp.status) resp.body)

/-- The envelope test of `iter_resource`:
`isinstance(data, dict) and \x7b"results", "next"\x7d.issubset(data.keys())`. -/
def isEnvelope : Json → Bool
  | .obj fields => hasKey "results" fields && hasKey "next" fields
  | _ => false

/-- Python `for item in value` over a JSON-decoded value: lists yield their
elements, strings their characters, dicts their keys; other values raise
TypeError (`none`). -/
def pyIterList : Json → Option (List Json)
  | .arr items => some items
  | .str s => some (s.data.map (fun c => Json.str (String.singleton c)))
  | .obj fields => some (fields.map (fun kv => Json.str kv.1))
  | _ => none

/-- The URL argument `next_url or resource` passed to `_request`: the cursor
when truthy (it must be a string to build a URL; `none` models the TypeError
otherwise), the resource on the first request. -/
def requestUrl (nextUrl : Json) (resource : String) : Option String :=
  if nextUrl.isTruthy then
    match nextUrl with
    | .str u => some u
    | _ => none
  else some resource

/-- A single HTTP request as issued by `_request`: the path-or-URL argument
and the query parameters sent with it. -/
structure Request where
  target : String
  params : Option Params
deriving DecidableEq

/-- One observable event of a run of the `iter_resource` generator: a request
issued to the transport, or a record yielded to the consumer. -/
inductive TraceEv where
  | req (r : Request)
  | yld (j : Json)

/-- How a run of the `iter_resource` generator ends. -/
inductive IterResult where
  | done
  | failed (e : NetBoxAPIError)
  | pyError
  | outOfResponses

/-- The loop of `NetBoxClient.iter_resource`, driven by the list of responses
the transport returns to its successive requests (one response consumed per
loop iteration).  State: `nextUrl` is the Python `next_url` (initially `None`,
then `data.get("next")`), `curParams` the Python `current_params`.  The trace
records requests and yields in the order the generator produces them;
`pyError` marks executions raising an unmodelled Python TypeError (non-string
truthy cursor or non-iterable `results`), `outOfResponses` the model artifact
of exhausting the supplied response list. -/
def iterFrom (resource : String) : Json → Option Params → List HttpResponse →
    List TraceEv × IterResult
  | _, _, [] => ([], .outOfResponses)
  | nextUrl, curParams, resp :: rest =>
    match requestUrl nextUrl resource with
    | none => ([], .pyError)
    | some target =>
      let sent : Option Params := if nextUrl.isTruthy then none else curParams
      let rq : TraceEv := .req ⟨target, sent⟩
      match hrequest resp with
      | .error e => ([rq], .failed e)
      | .ok r =>
        match r.body with
        | none => ([rq], .failed (nonJsonError r.text))
        | some data =>
          if isEnvelope data then
            match pyIterList (objGet data "results" (.arr [])) with
            | none => ([rq], .pyError)
            | some items =>
              let nextVal := objGet data "next" .null
              if nextVal.isTruthy then
                let cont := iterFrom resource nextVal none rest
                (rq :: items.map .yld ++ cont.1, cont.2)
              else
                (rq :: items.map .yld, .done)
          else
            match data with
            | .arr items => (rq :: items.map .yld, .done)
            | .obj _ => ([rq, .yld data], .done)
            | _ => ([rq], .failed (unexpectedError data))

/-- `NetBoxClient.iter_resource(resource, params)`: the loop started with
`next_url = None` and `current_params = dict(params or \x7b\x7d)`. -/
def iter_resource (resource : String) (params : Params) (responses : List HttpResponse) :
    List TraceEv × IterResult :=
  iterFrom resource .null (some params) responses

/-- The records a trace yields, in order. -/
def traceYields : List TraceEv → List Json
  | [] => []
  | .yld j :: rest => j :: traceYields rest
  | .req _ :: rest => traceYields rest

/-- The requests a trace issues, in order. -/
def traceReqs : List TraceEv → List Request
  | [] => []
  | .req r :: rest => r :: traceReqs rest
  | .yld _ :: rest => traceReqs rest

/-- The first record a trace yields, if any. -/
def firstYield : List TraceEv → Option Json
  | [] => none
  | .yld j :: _ => some j
  | .req _ :: rest => firstYield rest

/-- The prefix of a trace up to and including its first yield: the events that
actually happen when a consumer abandons the generator after one record. -/
def takeToFirstYield : List TraceEv → List TraceEv
  | [] => []
  | .yld j :: _ => [.yld j]
  | .req r :: rest => .req r :: takeToFirstYield rest

/-- The outcome of `NetBoxClient.get_first`. -/
inductive FirstResult where
  | found (j : Json)
  | empty
  | failed (e : NetBoxAPIError)
  | stuck

/-- Consuming a generator run until its first record: the record when one is
yielded (the trace then stops at that yield, later events never execute), the
end result otherwise. -/
def get_firstAux : List TraceEv × IterResult → FirstResult × List TraceEv
  | (tr, res) =>
    match firstYield tr with
    | some j => (.found j, takeToFirstYield tr)
    | none =>
      match res with
      | .done => (.empty, tr)
      | .failed e => (.failed e, tr)
      | .pyError => (.stuck, tr)
      | .outOfResponses => (.stuck, tr)

/-- `NetBoxClient.get_first(resource, params)`: consume `iter_resource` until
its first record and return it, `None` when the generator finishes without
yielding, re-raising any error the generator raises.  The returned trace is
what the lazily-driven generator actually executes. -/
def get_first (resource : String) (params : Params) (responses : List HttpResponse) :
    FirstResult × List TraceEv :=
  get_firstAux (iter_resource resource params responses)

/-- `resource.rstrip('/')`. -/
def rstripSlash (s : String) : String :=
  String.mk ((s.data.reverse.dropWhile (fun c => c = '/')).reverse)

/-- `NetBoxClient.get_by_id(resource, object_id)`, given the response the
transport returns for its one direct request: a 404 from `_request` becomes
`None`, any other `NetBoxAPIError` re-raises, and a successful response
parses the JSON body (raising the non-JSON error when it does not parse). -/
def get_by_id (resource objectId : String) (resp : HttpResponse) :
    Except NetBoxAPIError (Option Json) × Request :=
  let path := rstripSlash resource ++ "/" ++ objectId ++ "/"
  let rq : Request := ⟨path, none⟩
  match hrequest resp with
  | .error e =>
    if e.status = some 404 then (.ok none, rq) else (.error e, rq)
  | .ok r =>
    match r.body with
    | some j => (.ok (some j), rq)
    | none => (.error (nonJsonError r.text), rq)

/-- A successful envelope page response: `results` holding the page's records,
`next` holding the cursor (a URL string, or null on the last page). -/
def envPage (results : List Json) (next : Json) : HttpResponse :=
  ⟨200, "", some (.obj [("results", .arr results), ("next", next)])⟩

/-- The transport responses of a paginated collection: page `i` carries the
`i`-th cursor to the following page, the final page a null cursor. -/
def buildChain : List (List Json) → List String → List HttpResponse
  | [], _ => []
  | p :: _, [] => [envPage p .null]
  | p :: ps, c :: cs => envPage p (.str c) :: buildChain ps cs

/-- The generator trace of a paginated run after its first request: each
page's yields in order, with a parameterless request to each cursor between
consecutive pages. -/
def chainTrace : List (List Json) → List String → List TraceEv
  | [], _ => []
  | p :: _, [] => p.map .yld
  | p :: ps, c :: cs => p.map .yld ++ .req ⟨c, none⟩ :: chainTrace ps cs

end NetBoxClient

/-! ### `netbox_inventory.py`

`_guess_event_time` relies on `datetime.strptime` with the two formats of
`ISO_FORMATS = ("%Y-%m-%dT%H:%M:%S.%f%z", "%Y-%m-%dT%H:%M:%S%z")` and on
`datetime.timestamp()`.  The CPython `_strptime` matcher is modelled as a
backtracking parser whose candidate order mirrors the regex alternation and
greediness, followed by the `datetime`/`timezone` constructor validation; the
float `timestamp()` is modelled exactly, in integer epoch microseconds. -/

/-- The fields of a `strptime` match before `datetime` construction. -/
structure TM where
  year : Nat
  month : Nat
  day : Nat
  hour : Nat
  minute : Nat
  second : Nat
  micro : Nat
  offMicro : Int
deriving DecidableEq

/-- Decimal value of a digit character. -/
def digitVal (c : Char) : Nat := c.toNat - 48

/-- `%Y`: exactly four digits. -/
def pY : List Char → List (Nat × List Char)
  | a :: b :: c :: d :: rest =>
    if a.isDigit && b.isDigit && c.isDigit && d.isDigit then
      [(digitVal a * 1000 + digitVal b * 100 + digitVal c * 10 + digitVal d, rest)]
    else []
  | _ => []

/-- A literal format character, matched case-insensitively as the compiled
`strptime` pattern is. -/
def pLit (c : Char) : List Char → List (Unit × List Char)
  | x :: rest => if x.toLower = c.toLower then [((), rest)] else []
  | _ => []

/-- `%m`: the alternation `1[0-2]|0[1-9]|[1-9]`, in regex backtracking order. -/
def pMonth : List Char → List (Nat × List Char)
  | [] => []
  | a :: rest =>
    let two :=
      match rest with
      | b :: rest2 =>
        if a.isDigit && b.isDigit &&
            ((digitVal a = 1 && digitVal b ≤ 2) || (digitVal a = 0 && 1 ≤ digitVal b)) then
          [(digitVal a * 10 + digitVal b, rest2)]
        else []
      | [] => []
    let one := if a.isDigit && 1 ≤ digitVal a then [(digitVal a, rest)] else []
    two ++ one

/-- `%d`: the alternation `3[01]|[12]\d|0[1-9]|[1-9]`. -/
def pDay : List Char → List (Nat × List Char)
  | [] => []
  | a :: rest =>
    let two :=
      match rest with
      | b :: rest2 =>
        if a.isDigit && b.isDigit &&
            ((digitVal a = 3 && digitVal b ≤ 1) || digitVal a = 1 || digitVal a = 2 ||
              (digitVal a = 0 && 1 ≤ digitVal b)) then
          [(digitVal a * 10 + digitVal b, rest2)]
        else []
      | [] => []
    let one := if a.isDigit && 1 ≤ digitVal a then [(digitVal a, rest)] else []
    two ++ one

/-- `%H`: the alternation `2[0-3]|[0-1]\d|\d`. -/
def pHour : List Char → List (Nat × List Char)
  | [] => []
  | a :: rest =>
    let two :=
      match rest with
      | b :: rest2 =>
        if a.isDigit && b.isDigit &&
            ((digitVal a = 2 && digitVal b ≤ 3) || digitVal a ≤ 1) then
          [(digitVal a * 10 + digitVal b, rest2)]
        else []
      | [] => []
    let one := if a.isDigit then [(digitVal a, rest)] else []
    two ++ one

/-- `%M`: the alternation `[0-5]\d|\d`. -/
def pMin : List Char → List (Nat × List Char)
  | [] => []
  | a :: rest =>
    let two :=
      match rest with
      | b :: rest2 =>
        if a.isDigit && b.isDigit && digitVal a ≤ 5 then
          [(digitVal a * 10 + digitVal b, rest2)]
        else []
      | [] => []
    let one := if a.isDigit then [(digitVal a, rest)] else []
    two ++ one

/-- `%S`: the alternation `6[0-1]|[0-5]\d|\d`. -/
def pSec : List Char → List (Nat × List Char)
  | [] => []
  | a :: rest =>
    let two :=
      match rest with
      | b :: rest2 =>
        if a.isDigit && b.isDigit &&
            ((digitVal a = 6 && digitVal b ≤ 1) || digitVal a ≤ 5) then
          [(digitVal a * 10 + digitVal b, rest2)]
        else []
      | [] => []
    let one := if a.isDigit then [(digitVal a, rest)] else []
    two ++ one

/-- Digits right-padded to six places, the microsecond value of a fraction. -/
def padMicro (ds : List Char) : Nat :=
  digitsVal ds * 10 ^ (6 - ds.length)

/-- `[0-9]\x7b1,6\x7d`, greedy: up to six digits, longest candidate first,
valued as microseconds. -/
def pFrac (cs : List Char) : List (Nat × List Char) :=
  let ds := (cs.takeWhile (fun c => c.isDigit)).take 6
  (List.range ds.length).map (fun i =>
    let len := ds.length - i
    (padMicro (ds.take len), cs.drop len))

/-- `:?`, greedy: consume a colon when present, also offering the skip. -/
def pColonOpt : List Char → List (Unit × List Char)
  | ':' :: rest => [((), rest), ((), ':' :: rest)]
  | cs => [((), cs)]

/-- `\d\d`: two digits, any value. -/
def p2d : List Char → List (Nat × List Char)
  | a :: b :: rest =>
    if a.isDigit && b.isDigit then [(digitVal a * 10 + digitVal b, rest)] else []
  | _ => []

/-- `%z`: the alternation `[+-]\d\d:?\d\d(:?\d\d(\.\d\x7b1,6\x7d)?)?|Z`,
valued as the UTC offset in microseconds, candidates in backtracking order. -/
def pZ : List Char → List (Int × List Char)
  | cs =>
    let signBranch :=
      match cs with
      | s :: rest =>
        if s = '+' || s = '-' then
          let sgn : Int := if s = '-' then -1 else 1
          (p2d rest).flatMap (fun hv =>
            (pColonOpt hv.2).flatMap (fun cv =>
              (p2d cv.2).flatMap (fun mv =>
                let base : Nat := hv.1 * 3600 + mv.1 * 60
                let withSec :=
                  (pColonOpt mv.2).flatMap (fun cv2 =>
                    (p2d cv2.2).flatMap (fun sv =>
                      let whole : Nat := base + sv.1
                      let withFrac :=
                        match sv.2 with
                        | '.' :: r6 =>
                          (pFrac r6).map (fun fv =>
                            (sgn * (Int.ofNat (whole * 1000000 + fv.1)), fv.2))
                        | _ => []
                      withFrac ++ [(sgn * Int.ofNat (whole * 1000000), sv.2)]))
                withSec ++ [(sgn * Int.ofNat (base * 1000000), mv.2)])))
        else []
      | [] => []
    let zBranch :=
      match cs with
      | 'Z' :: rest => [((0 : Int), rest)]
      | _ => []
    signBranch ++ zBranch

/-- The full match candidates of one `ISO_FORMATS` entry (`withFrac` selects
the fractional-seconds format), in regex backtracking order. -/
def parseAware (withFrac : Bool) (cs : List Char) : List (TM × List Char) :=
  (pY cs).flatMap (fun yv =>
    (pLit '-' yv.2).flatMap (fun l1 =>
      (pMonth l1.2).flatMap (fun mov =>
        (pLit '-' mov.2).flatMap (fun l2 =>
          (pDay l2.2).flatMap (fun dv =>
            (pLit 'T' dv.2).flatMap (fun l3 =>
              (pHour l3.2).flatMap (fun hv =>
                (pLit ':' hv.2).flatMap (fun l4 =>
                  (pMin l4.2).flatMap (fun miv =>
                    (pLit ':' miv.2).flatMap (fun l5 =>
                      (pSec l5.2).flatMap (fun sv =>
                        if withFrac then
                          (pLit '.' sv.2).flatMap (fun l6 =>
                            (pFrac l6.2).flatMap (fun fv =>
                              (pZ fv.2).map (fun zv =>
                                (⟨yv.1, mov.1, dv.1, hv.1, miv.1, sv.1, fv.1, zv.1⟩, zv.2))))
                        else
                          (pZ sv.2).map (fun zv =>
                            (⟨yv.1, mov.1, dv.1, hv.1, miv.1, sv.1, 0, zv.1⟩, zv.2)))))))))))))

/-- Gregorian leap year. -/
def isLeap (y : Nat) : Bool :=
  y % 4 = 0 && (y % 100 ≠ 0 || y % 400 = 0)

/-- Length of a month. -/
def daysInMonth (y m : Nat) : Nat :=
  if m = 2 then (if isLeap y then 29 else 28)
  else if m = 4 || m = 6 || m = 9 || m = 11 then 30
  else 31

/-- The `datetime(...)`/`timezone(...)` constructor checks applied to a regex
match: year at least 1, a real calendar day, seconds below 60 (the regex
admits leap seconds the constructor rejects), offset strictly within a day.
The regex itself already bounds month, hour and minute. -/
def validTM (t : TM) : Bool :=
  1 ≤ t.year && 1 ≤ t.day && t.day ≤ daysInMonth t.year t.month && t.second ≤ 59 &&
    (-86400000000 : Int) < t.offMicro && t.offMicro < 86400000000

/-- `datetime.strptime(s, fmt)` for one `ISO_FORMATS` entry: the regex takes
its first match (backtracking order), then the whole input must be consumed
and the constructor checks must pass; any failure is the ValueError the
caller catches. -/
def strptimeIso (withFrac : Bool) (s : String) : Option TM :=
  match (parseAware withFrac s.data).head? with
  | some (tm, rest) => if rest.isEmpty && validTM tm then some tm else none
  | none => none

/-- Days from 1970-01-01 to a civil date (proleptic Gregorian). -/
def daysFromCivil (y m d : Nat) : Int :=
  let yAdj := if m ≤ 2 then y - 1 else y
  let era := yAdj / 400
  let yoe := yAdj % 400
  let mp := (m + 9) % 12
  let doy := (153 * mp + 2) / 5 + (d - 1)
  let doe := yoe * 365 + yoe / 4 - yoe / 100 + doy
  (Int.ofNat (era * 146097 + doe)) - 719468

/-- `datetime.timestamp()` of an aware datetime, exactly, in epoch
microseconds. -/
def TM.timestampMicro (t : TM) : Int :=
  (daysFromCivil t.year t.month t.day * 86400
      + Int.ofNat (t.hour * 3600 + t.minute * 60 + t.second)) * 1000000
    + Int.ofNat t.micro - t.offMicro

/-- The inner loop of `_guess_event_time`: `for fmt in ISO_FORMATS`, first
format that parses wins. -/
def parseEventTime (text : String) : Option Int :=
  match strptimeIso true text with
  | some tm => some tm.timestampMicro
  | none =>
    match strptimeIso false text with
    | some tm => some tm.timestampMicro
    | none => none

/-- The key scan of `_guess_event_time`: a key whose value is absent or not a
string is skipped, a string value is stripped and tried against both formats,
and a value failing both formats also falls through to the next key. -/
def guessScan (payload : List (String × Json)) : List String → Option Int
  | [] => none
  | k :: ks =>
    match lookupJ k payload with
    | some (.str v) =>
      match parseEventTime (pyStrip v) with
      | some t => some t
      | none => guessScan payload ks
    | _ => guessScan payload ks

/-- `_guess_event_time(payload)`: scan `last_updated`, `last_update`,
`created` in that order. -/
def guess_event_time (payload : List (String × Json)) : Option Int :=
  guessScan payload ["last_updated", "last_update", "created"]

/-- `_parse_json(value)` from `netbox_inventory.py`: absent, empty or
(after stripping) blank input is the empty mapping; otherwise the stripped
text must decode to a JSON object, whose pairs are coerced with
`\x7bstr(k): str(v)\x7d` (keys are already strings). -/
def parse_json (value : Option String) : Except String (List (String × String)) :=
  match value with
  | none => .ok []
  | some v =>
    if v = "" then .ok []
    else
      let v2 := pyStrip v
      if v2 = "" then .ok []
      else
        match jsonLoads v2 with
        | none => .error "Failed to parse JSON payload for query parameters"
        | some data =>
          match data with
          | .obj fields => .ok (fields.map (fun kv => (pyStr (.str kv.1), pyStr kv.2)))
          | _ => .error "Query parameters must be provided as a JSON object"

/-! ### `netbox_lookup_command.py` -/

/-- A Splunk event record: a dict from field names to values. -/
abbrev Record := List (String × Json)

/-- `d[k] = v` on a Python dict: overwrite in place, append when new. -/
def dictSet {α : Type} : List (String × α) → String → α → List (String × α)
  | [], k, v => [(k, v)]
  | (k0, v0) :: rest, k, v =>
    if k0 = k then (k0, v) :: rest else (k0, v0) :: dictSet rest k v

/-- `record.setdefault(k, v)`: insert only when the key is absent. -/
def setdefault (r : Record) (k : String) (v : Json) : Record :=
  if hasKey k r then r else r ++ [(k, v)]

/-- `payload.get(field)` inside the projection loop: the payloads reaching it
are mappings (a non-mapping would raise AttributeError in Python). -/
def payloadGet (payload : Json) (field : String) : Json :=
  objGet payload field .null

/-- The per-invocation configuration of `NetBoxLookupCommand.stream`:
`match_field`, `netbox_field`, the parsed `fields` list (`_parse_fields`, empty
when unset), and the parsed static filters (`_base_filters`). -/
structure LookupCfg where
  matchField : String
  netboxField : String
  fieldList : List String
  baseFilters : Params

/-- The enrichment cache: `str(value)` keys mapping to the memoized
`get_first` outcome (which may be absence). -/
abbrev Cache := List (String × Option Json)

/-- `cache[cache_key]` lookup (`cache_key not in cache` is `none` here). -/
def cacheGet (c : Cache) (k : String) : Option (Option Json) :=
  (c.find? (fun kv => kv.1 == k)).map (fun kv => kv.2)

/-- Mutable state of one `stream` run: the cache, plus a count of the
`get_first` calls issued (the observable network activity). -/
structure RunState where
  cache : Cache
  lookups : Nat

/-- The tail of the per-record body: what `stream` emits once the memoized
lookup outcome for the record is known.  A falsy payload (absence, or a found
record with no fields) passes the record through; otherwise a configured
field list is projected under `netbox_<field>` keys (overwriting), or the
whole payload is serialized under the `netbox` key, first-write-wins. -/
def applyOutcome (cfg : LookupCfg) (payload : Option Json) (record : Record) : Record :=
  match payload with
  | none => record
  | some pj =>
    if !pj.isTruthy then record
    else
      if !cfg.fieldList.isEmpty then
        cfg.fieldList.foldl (fun r f => dictSet r ("netbox_" ++ f) (payloadGet pj f)) record
      else
        setdefault record "netbox" (.str pj.dumps)

/-- One iteration of the `for record in records` loop of
`NetBoxLookupCommand.stream`.  `lookup` is the `get_first` collaborator as a
function of the query parameters sent (the resource and client are fixed for
the run).  An absent or falsy match value passes the record through with no
lookup; otherwise the stringified value keys the cache, a miss calls
`get_first` once with `dict(base_filters)` updated at `netbox_field`, and the
memoized outcome drives the enrichment. -/
def processRecord (cfg : LookupCfg) (lookup : Params → Option Json)
    (st : RunState) (record : Record) : Record × RunState :=
  match lookupJ cfg.matchField record with
  | none => (record, st)
  | some v =>
    if !v.isTruthy then (record, st)
    else
      let cacheKey := pyStr v
      match cacheGet st.cache cacheKey with
      | some payload => (applyOutcome cfg payload record, st)
      | none =>
        let params := dictSet cfg.baseFilters cfg.netboxField cacheKey
        let result := lookup params
        (applyOutcome cfg result record,
          ⟨st.cache ++ [(cacheKey, result)], st.lookups + 1⟩)

/-- The `stream` loop from a given state: one output record per input record,
in order. -/
def streamGo (cfg : LookupCfg) (lookup : Params → Option Json) :
    RunState → List Record → List Record × RunState
  | st, [] => ([], st)
  | st, r :: rs =>
    let step := processRecord cfg lookup st r
    let rest := streamGo cfg lookup step.2 rs
    (step.1 :: rest.1, rest.2)

/-- `NetBoxLookupCommand.stream(records)`: the loop started with an empty
cache and no lookups issued. -/
def stream (cfg : LookupCfg) (lookup : Params → Option Json) (records : List Record) :
    List Record × RunState :=
  streamGo cfg lookup ⟨[], 0⟩ records

/-- `_base_filters` from `netbox_lookup_command.py`: an absent or empty
`query` is the empty mapping; otherwise the text is decoded as-is (no
stripping) and must be a JSON object, coerced with `\x7bstr(k): str(v)\x7d`;
both failures raise the same configuration error. -/
def base_filters (query : Option String) : Except String Params :=
  match query with
  | none => .ok []
  | some q =>
    if q = "" then .ok []
    else
      match jsonLoads q with
      | none => .error "Query filters must be a JSON object"
      | some data =>
        match data with
        | .obj fields => .ok (fields.map (fun kv => (pyStr (.str kv.1), pyStr kv.2)))
        | _ => .error "Query filters must be a JSON object"

/-- The timestamp a single record field contributes: present, string-typed,
and parsing (after stripping) under one of the two accepted formats. -/
def keyTime (payload : List (String × Json)) (k : String) : Option Int :=
  match lookupJ k payload with
  | some (.str v) => parseEventTime (pyStrip v)
  | _ => none

/-! ## Theorems -/

lemma guessScan_cons (payload : List (String × Json)) (k : String) (ks : List String) :
    guessScan payload (k :: ks) = (keyTime payload k).orElse (fun _ => guessScan payload ks) := by
  simp only [guessScan, keyTime]
  cases h : lookupJ k payload with
  | none => rfl
  | some j =>
    cases j with
    | null => rfl
    | bool b => rfl
    | num n => rfl
    | str v => cases h2 : parseEventTime (pyStrip v) <;> simp [h2, Option.orElse]
    | arr items => rfl
    | obj fields => rfl

/-- C4: the bulk-export timestamp inference scans `last_updated`, then
`last_update`, then `created`; the first field present, string-typed, and
parsing under one of the two accepted offset-aware formats yields that
instant's epoch time (modelled in exact microseconds), and the documented
example record yields epoch 1704164645.123456; with no usable field, no
timestamp is produced. -/
theorem guess_event_time_spec :
    (∀ payload : List (String × Json),
      guess_event_time payload =
        (keyTime payload "last_updated").orElse (fun _ =>
          (keyTime payload "last_update").orElse (fun _ =>
            keyTime payload "created"))) ∧
    guess_event_time [("last_updated", .str "2024-01-02T03:04:05.123456+00:00")] =
      some 1704164645123456 ∧
    guess_event_time [("last_updated", .num 7), ("created", .str "not-a-date")] = none := by
  refine ⟨fun payload => ?_, by decide, by decide⟩
  have h0 : guessScan payload [] = none := rfl
  simp only [guess_event_time, guessScan_cons, h0]
  cases keyTime payload "created" <;> cases keyTime payload "last_update" <;>
    cases keyTime payload "last_updated" <;> rfl

/-- C2: a response mapping with `results` but no `next` key is not an
envelope, so `iter_resource` yields the mapping itself once and stops after a
single request; a mapping is an envelope exactly when both keys are present. -/
theorem iter_resource_single_object_spec (resource : String) (params : Params)
    (text : String) (fields : List (String × Json))
    (hres : hasKey "results" fields = true) (hnext : hasKey "next" fields = false) :
    NetBoxClient.iter_resource resource params [⟨200, text, some (.obj fields)⟩] =
      ([.req ⟨resource, some params⟩, .yld (.obj fields)], .done) ∧
    ∀ fs : List (String × Json),
      NetBoxClient.isEnvelope (.obj fs) = (hasKey "results" fs && hasKey "next" fs) := by
  constructor
  · simp [NetBoxClient.iter_resource, NetBoxClient.iterFrom, NetBoxClient.requestUrl,
      Json.isTruthy, NetBoxClient.hrequest, HttpResponse.ok, NetBoxClient.isEnvelope, hres, hnext]
  · intro fs
    rfl

theorem iter_resource_single_object_witness :
    hasKey "results" [("results", Json.arr []), ("count", Json.num 0)] = true ∧
    hasKey "next" [("results", Json.arr []), ("count", Json.num 0)] = false ∧
    (NetBoxClient.iter_resource "dcim/devices" [] [⟨200, "",
        some (.obj [("results", Json.arr []), ("count", Json.num 0)])⟩] =
      ([.req ⟨"dcim/devices", some []⟩, .yld (.obj [("results", Json.arr []), ("count", Json.num 0)])],
        .done) ∧
      ∀ fs : List (String × Json),
        NetBoxClient.isEnvelope (.obj fs) = (hasKey "results" fs && hasKey "next" fs)) :=
  ⟨by decide, by decide,
    iter_resource_single_object_spec "dcim/devices" [] ""
      [("results", Json.arr []), ("count", Json.num 0)] (by decide) (by decide)⟩

/-- C3 counterexample: a 500 response whose body is not JSON raises an API
error whose payload is the empty mapping, not the raw response text under a
fallback key (`_request` passes `payload=None`, which the constructor
normalizes to the empty dict; the raw-text fallback exists only in
`iter_resource` and `get_by_id`). -/
theorem request_nonjson_payload_cex :
    NetBoxClient.hrequest ⟨500, "oops", none⟩ =
      .error { message := "NetBox API request failed with status 500",
               status := some 500, payload := Json.obj [] } := rfl

/-- C3 (amended): a non-success response raises an API error carrying the
HTTP status code and the parsed JSON body when the body is valid JSON and
parses to a truthy value; when the body is not JSON, the payload is the empty
mapping (not the raw text). -/
theorem request_error_payload_spec (resp : HttpResponse) (hbad : ¬ resp.status < 400) :
    ∃ e : NetBoxAPIError,
      NetBoxClient.hrequest resp = .error e ∧
      e.status = some resp.status ∧
      (∀ p, resp.body = some p → p.isTruthy = true → e.payload = p) ∧
      (resp.body = none → e.payload = Json.obj []) := by
  have hok : resp.ok = false := by
    simp [HttpResponse.ok, hbad]
  refine ⟨mkAPIError ("NetBox API request failed with status " ++ toString resp.status)
      (some resp.status) resp.body, ?_, ?_, ?_, ?_⟩
  · simp [NetBoxClient.hrequest, hok]
  · rfl
  · intro p hp htr
    simp [mkAPIError, hp, htr]
  · intro hp
    simp [mkAPIError, hp]

theorem request_error_payload_witness :
    ¬ (404 : Nat) < 400 ∧
    ∃ e : NetBoxAPIError,
      NetBoxClient.hrequest ⟨404, "nf", some (.obj [("detail", .str "Not found.")])⟩ = .error e ∧
      e.status = some 404 ∧
      (∀ p, (some (Json.obj [("detail", Json.str "Not found.")]) : Option Json) = some p →
        p.isTruthy = true → e.payload = p) ∧
      ((some (Json.obj [("detail", Json.str "Not found.")]) : Option Json) = none →
        e.payload = Json.obj []) :=
  ⟨by decide, request_error_payload_spec ⟨404, "nf", some (.obj [("detail", .str "Not found.")])⟩
    (by decide)⟩

/-- C6: `get_by_id` requests `resource/id/` directly; a 404 becomes absence,
any other non-success status re-raises the API error with that status, and a
success returns the parsed JSON body. -/
theorem get_by_id_spec (resource objectId : String) (resp : HttpResponse) :
    (resp.status = 404 → (NetBoxClient.get_by_id resource objectId resp).1 = .ok none) ∧
    (¬ resp.status < 400 → resp.status ≠ 404 →
      ∃ e : NetBoxAPIError, (NetBoxClient.get_by_id resource objectId resp).1 = .error e ∧
        e.status = some resp.status) ∧
    (resp.status < 400 → ∀ j, resp.body = some j →
      (NetBoxClient.get_by_id resource objectId resp).1 = .ok (some j)) ∧
    (NetBoxClient.get_by_id resource objectId resp).2 =
      ⟨NetBoxClient.rstripSlash resource ++ "/" ++ objectId ++ "/", none⟩ := by
  refine ⟨?_, ?_, ?_, ?_⟩
  · intro h404
    have hok : resp.ok = false := by
      simp [HttpResponse.ok, h404]
    simp [NetBoxClient.get_by_id, NetBoxClient.hrequest, hok, mkAPIError, h404]
  · intro hbad hne
    have hok : resp.ok = false := by
      simp [HttpResponse.ok, hbad]
    refine ⟨mkAPIError ("NetBox API request failed with status " ++ toString resp.status)
        (some resp.status) resp.body, ?_, rfl⟩
    have hstat : (mkAPIError ("NetBox API request failed with status " ++ toString resp.status)
        (some resp.status) resp.body).status = some resp.status := rfl
    simp [NetBoxClient.get_by_id, NetBoxClient.hrequest, hok, hstat, hne]
  · intro hlt j hj
    have hok : resp.ok = true := by
      simp [HttpResponse.ok, hlt]
    simp [NetBoxClient.get_by_id, NetBoxClient.hrequest, hok, hj]
  · cases hr : NetBoxClient.hrequest resp with
    | error e =>
      by_cases h : e.status = some 404 <;>
        simp [NetBoxClient.get_by_id, hr, h]
    | ok r =>
      cases hb : r.body <;> simp [NetBoxClient.get_by_id, hr, hb]

theorem get_by_id_witness :
    (404 : Nat) = 404 ∧
    (NetBoxClient.get_by_id "dcim/devices" "7" ⟨404, "", some (Json.obj [])⟩).1 = .ok none :=
  ⟨rfl, (get_by_id_spec "dcim/devices" "7" ⟨404, "", some (Json.obj [])⟩).1 rfl⟩

/-- C7: with no projected field list and a found (truthy) payload, `stream`
sets the single `netbox` key to the payload serialized as JSON, but only when
the key is absent from the input record; a pre-existing `netbox` value is
left untouched. -/
theorem stream_default_field_spec :
    (stream ⟨"host", "name", [], []⟩
        (fun _ => some (.obj [("name", .str "sw1"), ("site", .str "nyc"), ("role", .str "core")]))
        [[("host", .str "sw1")]]).1 =
      [[("host", .str "sw1"),
        ("netbox", .str "\x7b\"name\": \"sw1\", \"site\": \"nyc\", \"role\": \"core\"\x7d")]] ∧
    (stream ⟨"host", "name", [], []⟩
        (fun _ => some (.obj [("name", .str "sw1"), ("site", .str "nyc"), ("role", .str "core")]))
        [[("host", .str "sw1"), ("netbox", .str "old")]]).1 =
      [[("host", .str "sw1"), ("netbox", .str "old")]] :=
  ⟨rfl, rfl⟩

/-- C9: a cached lookup outcome that is a found-but-empty mapping is falsy and
is treated exactly like the cached not-found outcome: the record passes
through unchanged, with no enrichment key written and no state change. -/
theorem stream_empty_payload_spec (cfg : LookupCfg) (lookup : Params → Option Json)
    (cache : Cache) (n : Nat) (record : Record) (v : Json)
    (hv : lookupJ cfg.matchField record = some v) (ht : v.isTruthy = true)
    (hit : cacheGet cache (pyStr v) = some (some (Json.obj []))) :
    processRecord cfg lookup ⟨cache, n⟩ record = (record, ⟨cache, n⟩) ∧
    ∀ cache2 : Cache, cacheGet cache2 (pyStr v) = some none →
      processRecord cfg lookup ⟨cache2, n⟩ record = (record, ⟨cache2, n⟩) := by
  constructor
  · simp [processRecord, hv, ht, hit, applyOutcome, Json.isTruthy]
  · intro cache2 hit2
    simp [processRecord, hv, ht, hit2, applyOutcome]

theorem stream_empty_payload_witness :
    lookupJ "host" [("host", Json.str "sw1")] = some (Json.str "sw1") ∧
    (Json.str "sw1").isTruthy = true ∧
    cacheGet [("sw1", some (Json.obj []))] (pyStr (Json.str "sw1")) = some (some (Json.obj [])) ∧
    (processRecord ⟨"host", "name", [], []⟩ (fun _ => none)
        ⟨[("sw1", some (Json.obj []))], 1⟩ [("host", Json.str "sw1")] =
      ([("host", Json.str "sw1")], ⟨[("sw1", some (Json.obj []))], 1⟩) ∧
      ∀ cache2 : Cache, cacheGet cache2 (pyStr (Json.str "sw1")) = some none →
        processRecord ⟨"host", "name", [], []⟩ (fun _ => none)
          ⟨cache2, 1⟩ [("host", Json.str "sw1")] = ([("host", Json.str "sw1")], ⟨cache2, 1⟩)) :=
  ⟨rfl, rfl, rfl,
    stream_empty_payload_spec ⟨"host", "name", [], []⟩ (fun _ => none)
      [("sw1", some (Json.obj []))] 1 [("host", Json.str "sw1")] (Json.str "sw1")
      rfl rfl rfl⟩

/-- C10 counterexample: the enrichment parser `_base_filters` does not strip
before decoding, so a whitespace-only configuration raises the configuration
error instead of yielding an empty mapping. -/
theorem base_filters_whitespace_cex :
    base_filters (some " ") = .error "Query filters must be a JSON object" := rfl

/-- C10 (amended): both filter parsers coerce every key and value of a
decoded JSON object with `str`, so non-string JSON values are sent in
stringified form; an absent or empty configuration yields the empty mapping
in both parsers, and a whitespace-only configuration yields the empty mapping
in the bulk-export parser `_parse_json` (which strips first) but raises the
configuration error in the enrichment parser `_base_filters` (which does
not strip). -/
theorem filter_param_coercion_spec :
    (∀ (v : String) (fields : List (String × Json)), v ≠ "" →
      jsonLoads (pyStrip v) = some (.obj fields) →
      parse_json (some v) = .ok (fields.map (fun kv => (pyStr (.str kv.1), pyStr kv.2)))) ∧
    (∀ (q : String) (fields : List (String × Json)), q ≠ "" →
      jsonLoads q = some (.obj fields) →
      base_filters (some q) = .ok (fields.map (fun kv => (pyStr (.str kv.1), pyStr kv.2)))) ∧
    parse_json none = .ok [] ∧ parse_json (some "") = .ok [] ∧
    parse_json (some "   ") = .ok [] ∧
    base_filters none = .ok [] ∧ base_filters (some "") = .ok [] ∧
    parse_json (some "\x7b\"a\": 5, \"b\": true, \"c\": null, \"d\": \"x\"\x7d") =
      .ok [("a", "5"), ("b", "True"), ("c", "None"), ("d", "x")] := by
  refine ⟨?_, ?_, rfl, rfl, rfl, rfl, rfl, by rfl⟩
  · intro v fields hv hjson
    have htrim : pyStrip v ≠ "" := by
      intro h
      rw [h] at hjson
      exact Option.noConfusion hjson
    simp [parse_json, hv, htrim, hjson]
  · intro q fields hq hjson
    simp [base_filters, hq, hjson]

open NetBoxClient in
lemma iterFrom_envPage (resource : String) (nextUrl : Json) (curParams : Option Params)
    (target : String) (hreq : requestUrl nextUrl resource = some target)
    (p : List Json) (next : Json) (rest : List HttpResponse) :
    iterFrom resource nextUrl curParams (envPage p next :: rest) =
      (if next.isTruthy then
        ((.req ⟨target, if nextUrl.isTruthy then none else curParams⟩ : TraceEv) ::
            p.map .yld ++ (iterFrom resource next none rest).1,
          (iterFrom resource next none rest).2)
      else
        ((.req ⟨target, if nextUrl.isTruthy then none else curParams⟩ : TraceEv) ::
            p.map .yld, .done)) := by
  simp only [iterFrom, hreq]
  rfl

open NetBoxClient in
lemma iterFrom_buildChain (resource : String) (pages : List (List Json)) :
    ∀ (cursors : List String) (nextUrl : Json) (curParams : Option Params) (target : String),
      pages.length = cursors.length + 1 →
      (∀ c ∈ cursors, c ≠ "") →
      requestUrl nextUrl resource = some target →
      iterFrom resource nextUrl curParams (buildChain pages cursors) =
        ((.req ⟨target, if nextUrl.isTruthy then none else curParams⟩ : TraceEv) ::
            chainTrace pages cursors, .done) := by
  induction pages with
  | nil =>
    intro cursors nextUrl curParams target hlen hc hreq
    simp at hlen
  | cons p ps ih =>
    intro cursors nextUrl curParams target hlen hc hreq
    cases cursors with
    | nil =>
      simp only [buildChain, chainTrace]
      rw [iterFrom_envPage resource nextUrl curParams target hreq p .null []]
      rfl
    | cons c cs =>
      have hc0 : c ≠ "" := hc c (List.mem_cons_self c cs)
      have htr : (Json.str c).isTruthy = true := by
        simp [Json.isTruthy, hc0]
      have hreq2 : requestUrl (Json.str c) resource = some c := by
        simp [requestUrl, htr]
      have hlen2 : ps.length = cs.length + 1 := by
        simpa using hlen
      have hc2 : ∀ x ∈ cs, x ≠ "" := fun x hx => hc x (List.mem_cons_of_mem c hx)
      simp only [buildChain, chainTrace]
      rw [iterFrom_envPage resource nextUrl curParams target hreq p (.str c) (buildChain ps cs)]
      rw [ih cs (Json.str c) none c hlen2 hc2 hreq2]
      simp [htr]

open NetBoxClient in
lemma traceYields_append (t1 t2 : List TraceEv) :
    traceYields (t1 ++ t2) = traceYields t1 ++ traceYields t2 := by
  induction t1 with
  | nil => rfl
  | cons e rest ih => cases e <;> simp [traceYields, ih]

open NetBoxClient in
lemma traceReqs_append (t1 t2 : List TraceEv) :
    traceReqs (t1 ++ t2) = traceReqs t1 ++ traceReqs t2 := by
  induction t1 with
  | nil => rfl
  | cons e rest ih => cases e <;> simp [traceReqs, ih]

open NetBoxClient in
lemma traceYields_map_yld (js : List Json) : traceYields (js.map .yld) = js := by
  induction js with
  | nil => rfl
  | cons j rest ih => simp [traceYields, ih]

open NetBoxClient in
lemma traceReqs_map_yld (js : List Json) : traceReqs (js.map .yld) = [] := by
  induction js with
  | nil => rfl
  | cons j rest ih => simp [traceReqs, ih]

open NetBoxClient in
lemma traceYields_chainTrace (pages : List (List Json)) :
    ∀ cursors : List String, pages.length = cursors.length + 1 →
      traceYields (chainTrace pages cursors) = pages.flatten := by
  induction pages with
  | nil => intro cursors hlen; simp at hlen
  | cons p ps ih =>
    intro cursors hlen
    cases cursors with
    | nil =>
      have hps : ps = [] := List.length_eq_zero.mp (by simpa using hlen)
      simp [chainTrace, traceYields_map_yld, hps]
    | cons c cs =>
      have hlen2 : ps.length = cs.length + 1 := by simpa using hlen
      simp [chainTrace, traceYields_append, traceYields_map_yld, traceYields,
        ih cs hlen2]

open NetBoxClient in
lemma traceReqs_chainTrace (pages : List (List Json)) :
    ∀ cursors : List String, pages.length = cursors.length + 1 →
      traceReqs (chainTrace pages cursors) =
        cursors.map (fun c => (⟨c, none⟩ : Request)) := by
  induction pages with
  | nil => intro cursors hlen; simp at hlen
  | cons p ps ih =>
    intro cursors hlen
    cases cursors with
    | nil => simp [chainTrace, traceReqs_map_yld]
    | cons c cs =>
      have hlen2 : ps.length = cs.length + 1 := by simpa using hlen
      simp [chainTrace, traceReqs_append, traceReqs_map_yld, traceReqs, ih cs hlen2]

/-- C1: over an N-page paginated response chain, `iter_resource` yields the
concatenation of the pages' `results` in per-page per-index order, issues
exactly N requests — the first against the resource with the caller's
parameters, each following one against the previous page's `next` cursor with
no parameters — and finishes normally. -/
theorem iter_resource_paginated_spec (resource : String) (params : Params)
    (pages : List (List Json)) (cursors : List String)
    (hlen : pages.length = cursors.length + 1)
    (hc : ∀ c ∈ cursors, c ≠ "") :
    NetBoxClient.traceYields
        (NetBoxClient.iter_resource resource params (NetBoxClient.buildChain pages cursors)).1 =
      pages.flatten ∧
    NetBoxClient.traceReqs
        (NetBoxClient.iter_resource resource params (NetBoxClient.buildChain pages cursors)).1 =
      ⟨resource, some params⟩ :: cursors.map (fun c => (⟨c, none⟩ : NetBoxClient.Request)) ∧
    (NetBoxClient.traceReqs
        (NetBoxClient.iter_resource resource params (NetBoxClient.buildChain pages cursors)).1).length =
      pages.length ∧
    (NetBoxClient.iter_resource resource params (NetBoxClient.buildChain pages cursors)).2 =
      .done := by
  have hreq : NetBoxClient.requestUrl Json.null resource = some resource := rfl
  have hrun := iterFrom_buildChain resource pages cursors Json.null (some params) resource
    hlen hc hreq
  simp only [NetBoxClient.iter_resource]
  rw [hrun]
  refine ⟨?_, ?_, ?_, rfl⟩
  · simp [NetBoxClient.traceYields, traceYields_chainTrace pages cursors hlen]
  · simp [NetBoxClient.traceReqs, Json.isTruthy, traceReqs_chainTrace pages cursors hlen]
  · simp [NetBoxClient.traceReqs, traceReqs_chainTrace pages cursors hlen, hlen]

theorem iter_resource_paginated_witness :
    ([[Json.num 1, Json.num 2], [Json.num 3]] : List (List Json)).length =
      (["page2"] : List String).length + 1 ∧
    (∀ c ∈ (["page2"] : List String), c ≠ "") ∧
    (NetBoxClient.traceYields
        (NetBoxClient.iter_resource "dcim/devices" [("site", "nyc")]
          (NetBoxClient.buildChain [[Json.num 1, Json.num 2], [Json.num 3]] ["page2"])).1 =
      ([[Json.num 1, Json.num 2], [Json.num 3]] : List (List Json)).flatten ∧
    NetBoxClient.traceReqs
        (NetBoxClient.iter_resource "dcim/devices" [("site", "nyc")]
          (NetBoxClient.buildChain [[Json.num 1, Json.num 2], [Json.num 3]] ["page2"])).1 =
      ⟨"dcim/devices", some [("site", "nyc")]⟩ ::
        (["page2"] : List String).map (fun c => (⟨c, none⟩ : NetBoxClient.Request)) ∧
    (NetBoxClient.traceReqs
        (NetBoxClient.iter_resource "dcim/devices" [("site", "nyc")]
          (NetBoxClient.buildChain [[Json.num 1, Json.num 2], [Json.num 3]] ["page2"])).1).length =
      ([[Json.num 1, Json.num 2], [Json.num 3]] : List (List Json)).length ∧
    (NetBoxClient.iter_resource "dcim/devices" [("site", "nyc")]
        (NetBoxClient.buildChain [[Json.num 1, Json.num 2], [Json.num 3]] ["page2"])).2 =
      .done) :=
  ⟨by decide, by decide,
    iter_resource_paginated_spec "dcim/devices" [("site", "nyc")]
      [[Json.num 1, Json.num 2], [Json.num 3]] ["page2"] (by decide) (by decide)⟩

open NetBoxClient in
lemma firstYield_eq_head (t : List TraceEv) : firstYield t = (traceYields t).head? := by
  induction t with
  | nil => rfl
  | cons e rest ih => cases e <;> simp [firstYield, traceYields, ih]

open NetBoxClient in
lemma get_firstAux_empty (pr : List TraceEv × IterResult)
    (h1 : traceYields pr.1 = []) (h2 : pr.2 = .done) :
    (get_firstAux pr).1 = .empty := by
  obtain ⟨tr, res⟩ := pr
  simp only at h1 h2
  simp [get_firstAux, firstYield_eq_head, h1, h2]

open NetBoxClient in
lemma get_firstAux_found (pr : List TraceEv × IterResult) (j : Json) (t : List Json)
    (h1 : traceYields pr.1 = j :: t) :
    (get_firstAux pr).1 = .found j := by
  obtain ⟨tr, res⟩ := pr
  simp only at h1
  simp [get_firstAux, firstYield_eq_head, h1]

/-- C8: `get_first` returns the first record `iter_resource` yields, or
absence — without raising — when the generator finishes with no records; on a
paginated chain whose first page is nonempty it consumes exactly the one
initial request, never fetching past the page that produced the record. -/
theorem get_first_spec :
    (∀ (resource : String) (params : Params) (responses : List HttpResponse),
      NetBoxClient.traceYields (NetBoxClient.iter_resource resource params responses).1 = [] →
      (NetBoxClient.iter_resource resource params responses).2 = .done →
      (NetBoxClient.get_first resource params responses).1 = .empty) ∧
    (∀ (resource : String) (params : Params) (responses : List HttpResponse)
        (j : Json) (t : List Json),
      NetBoxClient.traceYields (NetBoxClient.iter_resource resource params responses).1 = j :: t →
      (NetBoxClient.get_first resource params responses).1 = .found j) ∧
    (∀ (resource : String) (params : Params) (j : Json) (p : List Json)
        (ps : List (List Json)) (cursors : List String),
      ((j :: p) :: ps).length = cursors.length + 1 →
      (∀ c ∈ cursors, c ≠ "") →
      (NetBoxClient.get_first resource params
          (NetBoxClient.buildChain ((j :: p) :: ps) cursors)).1 = .found j ∧
      NetBoxClient.traceReqs (NetBoxClient.get_first resource params
          (NetBoxClient.buildChain ((j :: p) :: ps) cursors)).2 =
        [⟨resource, some params⟩]) := by
  refine ⟨?_, ?_, ?_⟩
  · intro resource params responses h1 h2
    exact get_firstAux_empty (NetBoxClient.iter_resource resource params responses) h1 h2
  · intro resource params responses j t h1
    exact get_firstAux_found (NetBoxClient.iter_resource resource params responses) j t h1
  · intro resource params j p ps cursors hlen hc
    have hreq : NetBoxClient.requestUrl Json.null resource = some resource := rfl
    have hrun := iterFrom_buildChain resource ((j :: p) :: ps) cursors Json.null (some params)
      resource hlen hc hreq
    have hhead : ∃ rest, NetBoxClient.chainTrace ((j :: p) :: ps) cursors =
        NetBoxClient.TraceEv.yld j :: rest := by
      cases cursors with
      | nil => exact ⟨_, rfl⟩
      | cons c cs => exact ⟨_, rfl⟩
    obtain ⟨rest, hrest⟩ := hhead
    constructor
    · simp only [NetBoxClient.get_first, NetBoxClient.iter_resource]
      rw [hrun, hrest]
      rfl
    · simp only [NetBoxClient.get_first, NetBoxClient.iter_resource]
      rw [hrun, hrest]
      rfl

theorem get_first_spec_witness :
    NetBoxClient.traceYields (NetBoxClient.iter_resource "dcim/devices" []
        [NetBoxClient.envPage [] Json.null]).1 = [] ∧
    (NetBoxClient.iter_resource "dcim/devices" [] [NetBoxClient.envPage [] Json.null]).2 =
      .done ∧
    (NetBoxClient.get_first "dcim/devices" [] [NetBoxClient.envPage [] Json.null]).1 =
      .empty ∧
    ((NetBoxClient.get_first "dcim/devices" []
        (NetBoxClient.buildChain [[Json.num 7], [Json.num 8]] ["page2"])).1 =
      .found (Json.num 7) ∧
      NetBoxClient.traceReqs (NetBoxClient.get_first "dcim/devices" []
          (NetBoxClient.buildChain [[Json.num 7], [Json.num 8]] ["page2"])).2 =
        [⟨"dcim/devices", some []⟩]) :=
  ⟨rfl, rfl,
    get_first_spec.1 "dcim/devices" [] [NetBoxClient.envPage [] Json.null] rfl rfl,
    get_first_spec.2.2 "dcim/devices" [] (Json.num 7) [] [[Json.num 8]] ["page2"]
      (by decide) (by decide)⟩

lemma processRecord_miss (cfg : LookupCfg) (lookup : Params → Option Json)
    (st : RunState) (r : Record) (v : Json)
    (hv : lookupJ cfg.matchField r = some v) (ht : v.isTruthy = true)
    (hmiss : cacheGet st.cache (pyStr v) = none) :
    processRecord cfg lookup st r =
      (applyOutcome cfg (lookup (dictSet cfg.baseFilters cfg.netboxField (pyStr v))) r,
        ⟨st.cache ++ [(pyStr v, lookup (dictSet cfg.baseFilters cfg.netboxField (pyStr v)))],
          st.lookups + 1⟩) := by
  simp [processRecord, hv, ht, hmiss]

lemma processRecord_hit (cfg : LookupCfg) (lookup : Params → Option Json)
    (st : RunState) (r : Record) (v : Json) (payload : Option Json)
    (hv : lookupJ cfg.matchField r = some v) (ht : v.isTruthy = true)
    (hhit : cacheGet st.cache (pyStr v) = some payload) :
    processRecord cfg lookup st r = (applyOutcome cfg payload r, st) := by
  simp [processRecord, hv, ht, hhit]

lemma processRecord_cache_nodup (cfg : LookupCfg) (lookup : Params → Option Json)
    (st : RunState) (r : Record)
    (h : (st.cache.map Prod.fst).Nodup) :
    (((processRecord cfg lookup st r).2).cache.map Prod.fst).Nodup := by
  cases hv : lookupJ cfg.matchField r with
  | none => simpa [processRecord, hv] using h
  | some v =>
    by_cases ht : v.isTruthy = true
    · cases hcg : cacheGet st.cache (pyStr v) with
      | some p => simpa [processRecord, hv, ht, hcg] using h
      | none =>
        have hnone : List.find? (fun kv => kv.1 == pyStr v) st.cache = none := by
          rcases hfind : List.find? (fun kv => kv.1 == pyStr v) st.cache with _ | kv
          · exact hfind
          · rw [cacheGet, hfind] at hcg
            exact Option.noConfusion hcg
        have hnotin : pyStr v ∉ st.cache.map Prod.fst := by
          intro hmem
          obtain ⟨kv, hkv, hfst⟩ := List.mem_map.mp hmem
          have hpred := List.find?_eq_none.mp hnone kv hkv
          simp [hfst] at hpred
        have hgoal : ((st.cache ++
            [(pyStr v, lookup (dictSet cfg.baseFilters cfg.netboxField (pyStr v)))]).map
              Prod.fst).Nodup := by
          rw [List.map_append, List.nodup_append]
          refine ⟨h, List.nodup_singleton _, ?_⟩
          intro a ha hb
          simp at hb
          exact hnotin (hb ▸ ha)
        simpa [processRecord, hv, ht, hcg] using hgoal
    · have ht2 : v.isTruthy = false := by
        simpa using ht
      simpa [processRecord, hv, ht2] using h

lemma streamGo_cache_nodup (cfg : LookupCfg) (lookup : Params → Option Json) :
    ∀ (records : List Record) (st : RunState),
      (st.cache.map Prod.fst).Nodup →
      (((streamGo cfg lookup st records).2).cache.map Prod.fst).Nodup := by
  intro records
  induction records with
  | nil => intro st h; simpa [streamGo] using h
  | cons r rs ih =>
    intro st h
    simp only [streamGo]
    exact ih _ (processRecord_cache_nodup cfg lookup st r h)

/-- C5: two records in one run whose match values stringify equally trigger
exactly one `get_first` lookup between them and receive outcomes computed
from the same memoized payload; across any run, the cache never holds two
entries for one stringified match value. -/
theorem stream_cache_spec (cfg : LookupCfg) (lookup : Params → Option Json)
    (r1 r2 : Record) (v1 v2 : Json)
    (h1 : lookupJ cfg.matchField r1 = some v1) (h2 : lookupJ cfg.matchField r2 = some v2)
    (ht1 : v1.isTruthy = true) (ht2 : v2.isTruthy = true)
    (heq : pyStr v1 = pyStr v2) :
    (stream cfg lookup [r1, r2]).2.lookups = 1 ∧
    (stream cfg lookup [r1, r2]).1 =
      [applyOutcome cfg (lookup (dictSet cfg.baseFilters cfg.netboxField (pyStr v1))) r1,
       applyOutcome cfg (lookup (dictSet cfg.baseFilters cfg.netboxField (pyStr v1))) r2] ∧
    ∀ records : List Record, ((stream cfg lookup records).2.cache.map Prod.fst).Nodup := by
  have e1 := processRecord_miss cfg lookup ⟨[], 0⟩ r1 v1 h1 ht1 rfl
  have hhit : cacheGet
      ([(pyStr v1, lookup (dictSet cfg.baseFilters cfg.netboxField (pyStr v1)))])
      (pyStr v2) =
      some (lookup (dictSet cfg.baseFilters cfg.netboxField (pyStr v1))) := by
    simp [cacheGet, ← heq]
  have e2 := processRecord_hit cfg lookup
    ⟨[(pyStr v1, lookup (dictSet cfg.baseFilters cfg.netboxField (pyStr v1)))], 1⟩
    r2 v2 (lookup (dictSet cfg.baseFilters cfg.netboxField (pyStr v1))) h2 ht2 hhit
  refine ⟨?_, ?_, ?_⟩
  · simp [stream, streamGo, e1, e2]
  · simp [stream, streamGo, e1, e2]
  · intro records
    exact streamGo_cache_nodup cfg lookup records ⟨[], 0⟩ (by simp)

theorem stream_cache_spec_witness :
    lookupJ "host" [("host", Json.str "sw1")] = some (Json.str "sw1") ∧
    lookupJ "host" [("host", Json.str "sw1"), ("idx", Json.num 2)] = some (Json.str "sw1") ∧
    (Json.str "sw1").isTruthy = true ∧
    pyStr (Json.str "sw1") = pyStr (Json.str "sw1") ∧
    ((stream ⟨"host", "name", [], []⟩ (fun _ => some (Json.obj [("name", Json.str "sw1")]))
        [[("host", Json.str "sw1")], [("host", Json.str "sw1"), ("idx", Json.num 2)]]).2.lookups =
      1 ∧
    (stream ⟨"host", "name", [], []⟩ (fun _ => some (Json.obj [("name", Json.str "sw1")]))
        [[("host", Json.str "sw1")], [("host", Json.str "sw1"), ("idx", Json.num 2)]]).1 =
      [applyOutcome ⟨"host", "name", [], []⟩
          ((fun _ => some (Json.obj [("name", Json.str "sw1")])) (dictSet [] "name"
            (pyStr (Json.str "sw1")))) [("host", Json.str "sw1")],
        applyOutcome ⟨"host", "name", [], []⟩
          ((fun _ => some (Json.obj [("name", Json.str "sw1")])) (dictSet [] "name"
            (pyStr (Json.str "sw1")))) [("host", Json.str "sw1"), ("idx", Json.num 2)]] ∧
    ∀ records : List Record,
      ((stream ⟨"host", "name", [], []⟩ (fun _ => some (Json.obj [("name", Json.str "sw1")]))
          records).2.cache.map Prod.fst).Nodup) :=
  ⟨rfl, rfl, rfl, rfl,
    stream_cache_spec ⟨"host", "name", [], []⟩
      (fun _ => some (Json.obj [("name", Json.str "sw1")]))
      [("host", Json.str "sw1")] [("host", Json.str "sw1"), ("idx", Json.num 2)]
      (Json.str "sw1") (Json.str "sw1") rfl rfl rfl rfl rfl⟩

theorem filter_param_coercion_witness :
    ("\x7b\"port\": 443\x7d" : String) ≠ "" ∧
    jsonLoads (pyStrip "\x7b\"port\": 443\x7d") = some (.obj [("port", Json.num 443)]) ∧
    parse_json (some "\x7b\"port\": 443\x7d") =
      .ok ([("port", Json.num 443)].map (fun kv => (pyStr (.str kv.1), pyStr kv.2))) ∧
    base_filters (some "\x7b\"port\": 443\x7d") =
      .ok ([("port", Json.num 443)].map (fun kv => (pyStr (.str kv.1), pyStr kv.2))) :=
  ⟨by decide, by rfl,
    filter_param_coercion_spec.1 "\x7b\"port\": 443\x7d" [("port", Json.num 443)]
      (by decide) (by rfl),
    filter_param_coercion_spec.2.1 "\x7b\"port\": 443\x7d" [("port", Json.num 443)]
      (by decide) (by rfl)⟩

end NB
